import Mathlib

/-!
Verification development for the owldial real-time voice-call agent
(`src/cloud-run-media-stream/server.js`, `src/frontend/src/audio/mulaw.ts`,
dashboard client and the operator HTTP control surface).
The JavaScript source is shallowly embedded: pure functions become Lean
functions on `Nat`/`Int`/`Rat`, the per-call mutable session object becomes
a `Session` structure threaded explicitly, and concurrent mutation of the
audio-send fields is modelled by explicit interference events between the
20 ms chunk ticks of the send loop.  External services (Firestore lookup,
Whisper STT, the classifier and chat LLM calls) are modelled as oracle
inputs, so every embedded operation is a total computable function.
-/

namespace Owldial

/-! ### G.711 mu-law codec (frontend/src/audio/mulaw.ts and server.js) -/

/-- Exponent of a biased mu-law magnitude, as computed by the `for` loop in
`linear16ToMuLawSample` (mulaw.ts lines 20-23).  The loop starts at
exponent 7 with bit mask 0x4000 and decrements while the masked bit of
`pcm` is zero; it therefore returns the highest set bit among bits 14..8
(as exponent 7..1) and 0 when none of those bits is set.  The loop is
unrolled here. -/
def muExp (pcm : Nat) : Nat :=
  if pcm &&& (1 <<< 14) != 0 then 7
  else if pcm &&& (1 <<< 13) != 0 then 6
  else if pcm &&& (1 <<< 12) != 0 then 5
  else if pcm &&& (1 <<< 11) != 0 then 4
  else if pcm &&& (1 <<< 10) != 0 then 3
  else if pcm &&& (1 <<< 9) != 0 then 2
  else if pcm &&& (1 <<< 8) != 0 then 1
  else 0

/-- Byte assembly step of `linear16ToMuLawSample` (mulaw.ts lines 24-26)
from the sign bit and the biased clipped magnitude `p`: exponent and
mantissa extraction followed by the final complement.  The JS
`~x & 0xff` is `x ^^^ 0xff` because the ORed value fits in 8 bits. -/
def encByte (sign : Nat) (p : Nat) : Nat :=
  (sign ||| (muExp p <<< 4) ||| ((p >>> (muExp p + 3)) &&& 0x0f)) ^^^ 0xff

/-- Embedding of `linear16ToMuLawSample` (mulaw.ts lines 7-27): G.711
mu-law encode of a 16-bit linear sample.  Sign handling, the `-32768`
guard, clipping to 32635 and the bias 0x84 are verbatim; exponent,
mantissa and the final complement are in `encByte`/`muExp`. -/
def linear16ToMuLawSample (sample : Int) : Nat :=
  let sign : Nat := if sample < 0 then 0x80 else 0
  let pcm0 : Int := if sample < 0 then (if -sample < 0 then 32767 else -sample) else sample
  let pcm1 : Int := if pcm0 > 32635 then 32635 else pcm0
  encByte sign (pcm1 + 0x84).toNat

/-- Embedding of `muLawToLinear16Sample` (mulaw.ts lines 29-37): G.711
mu-law decode of one byte to a 16-bit linear sample. -/
def muLawToLinear16Sample (muLawByte : Nat) : Int :=
  let u := (muLawByte &&& 0xff) ^^^ 0xff
  let sign := u &&& 0x80
  let exponent := (u >>> 4) &&& 0x07
  let mantissa := u &&& 0x0f
  let pcm : Int := ((((mantissa <<< 3) + 0x84) <<< exponent : Nat) : Int) - 0x84
  if sign ≠ 0 then -pcm else pcm

/-- Embedding of the server-side decoder `muLawToLinearSample`
(server.js lines 621-632), written there with a sign factor and an
explicit magnitude. -/
def muLawToLinearSample (muLawByte : Nat) : Int :=
  let u := (muLawByte &&& 0xff) ^^^ 0xff
  let sign : Int := if u &&& 0x80 ≠ 0 then -1 else 1
  let exponent := (u >>> 4) &&& 0x07
  let mantissa := u &&& 0x0f
  let magnitude : Int := ((((mantissa <<< 3) + 0x84) <<< exponent : Nat) : Int)
  sign * (magnitude - 0x84)

/-! ### Per-frame audio level (server.js `calculateAudioLevel`, lines 597-619)

The JS function returns `(rms / 32768) * 100` with
`rms = sqrt(sumSq / sampleSize)`.  To keep the embedding computable the
square of that level is computed exactly in `Rat`; the actual level is
`Real.sqrt` of it, which the theorems use.  Comparisons
`audioLevel > threshold` in the VAD are modelled by
`threshold ^ 2 < levelSq`, equivalent for the nonnegative thresholds the
source uses (defaults 2 and 6). -/

/-- The examined window: the first `min 160 length` bytes
(`sampleSize` in the source). -/
def audioSample (mulawBuffer : List Nat) : List Nat := mulawBuffer.take 160

/-- Count of 0xFF (mu-law idle) bytes in the examined window. -/
def audioSilentCount (mulawBuffer : List Nat) : Nat :=
  ((audioSample mulawBuffer).filter (fun b => b == 0xff)).length

/-- The silent fast path `silentCount / sampleSize > 0.95`, stated with
denominators cleared (`95 * size < 100 * silent`), which is equivalent
for a nonempty window and, like the JS NaN comparison, false for an
empty one. -/
def audioFastSilent (mulawBuffer : List Nat) : Bool :=
  decide (95 * (audioSample mulawBuffer).length < 100 * audioSilentCount mulawBuffer)

/-- Sum of squares of the decoded samples over the examined window. -/
def audioSumSq (mulawBuffer : List Nat) : ℤ :=
  (audioSample mulawBuffer).foldl (fun acc b => acc + muLawToLinearSample b ^ 2) 0

/-- Square of `calculateAudioLevel` (server.js lines 597-619): 0 for an
empty buffer; 0 on the silent fast path; otherwise the mean square of
the decoded samples normalized by `(100 / 32768) ^ 2`.  The level
itself is the square root of this value. -/
def calculateAudioLevelSq (mulawBuffer : List Nat) : ℚ :=
  if mulawBuffer.length = 0 then 0
  else if audioFastSilent mulawBuffer then 0
  else ((audioSumSq mulawBuffer : ℚ) / ((audioSample mulawBuffer).length : ℚ))
    * (100 / 32768) ^ 2

/-! ### Per-call session state

One structure for the mutable per-call session object of server.js
(`initializeSession`, line 1296, plus the lazily initialised `_`-prefixed
fields).  Fields that hold live JS objects (the WebSocket, timers,
promises) are replaced by the observable state the code branches on
(`wsOpen`, `pendingTimerActive`). -/

structure Session where
  callSid : Option String := none
  streamSid : Option String := none
  connected : Bool := false
  startReceived : Bool := false
  initialMessageSent : Bool := false
  /-- Whether the `onStreamSidReady` callback has been installed. -/
  hasOnStreamSidReady : Bool := false
  /-- Whether `session.ws.readyState === OPEN`. -/
  wsOpen : Bool := true
  isSendingAudio : Bool := false
  greetingInProgress : Bool := false
  audioGenCounter : Nat := 0
  activeAudioGen : Option Nat := none
  stopAudioGen : Option Nat := none
  uninterruptibleAudioGen : Option Nat := none
  speechActive : Bool := false
  speechWarmup : Nat := 0
  segmentBuffers : List (List Nat) := []
  segmentLastNonSilentIndex : Int := -1
  segmentStartMs : Option Nat := none
  speechStartMs : Option Nat := none
  lastSpeechMs : Option Nat := none
  lastIncomingAudioTime : Option Nat := none
  /-- Whether `_pendingProcessTimer` is set. -/
  pendingTimerActive : Bool := false
  pendingUserSegments : List (List Nat) := []
  closingAsked : Bool := false
  purposeCaptured : Bool := false
  deriving DecidableEq, Repr

/-- JS truthiness of a numeric field that is `null`/`undefined` or a
number: `null`, `undefined` and `0` are falsy. -/
def truthyGen (o : Option Nat) : Bool := o.getD 0 != 0

/-- Embedding of `requestStopAudio` (server.js lines 324-333): no-op
unless a send is in flight; ignored when the in-flight generation is
marked uninterruptible; otherwise records the active generation as the
one to stop. -/
def requestStopAudio (s : Session) (_reason : String) : Session :=
  if ¬s.isSendingAudio then s
  else if truthyGen s.uninterruptibleAudioGen = true ∧
      s.uninterruptibleAudioGen = s.activeAudioGen then s
  else { s with stopAudioGen := s.activeAudioGen }

/-- Generation allocation prologue of `sendAudioViaWebSocket`
(server.js lines 712-724): bump the counter, make the new generation
active, clear any pending stop, raise `isSendingAudio`, and record the
uninterruptible / greeting markers per the options. -/
def sendStart (s : Session) (uninterruptible : Bool) (label : String) : Session × Nat :=
  let gen := s.audioGenCounter + 1
  ({ s with
      audioGenCounter := gen
      activeAudioGen := some gen
      stopAudioGen := none
      isSendingAudio := true
      uninterruptibleAudioGen := if uninterruptible then some gen else s.uninterruptibleAudioGen
      greetingInProgress := if label = "greeting" then true else s.greetingInProgress },
    gen)

/-- Interference events that other tasks can apply to the shared session
between the 20 ms pacing sleeps of a send loop: a stop request
(`requestStopAudio`, from barge-in or a new reply) or the prologue of a
concurrently started send. -/
inductive SchedEv where
  | reqStop (reason : String)
  | startSend (uninterruptible : Bool) (label : String)
  deriving DecidableEq, Repr

/-- Apply one interference event to the session. -/
def applySchedEv (s : Session) : SchedEv → Session
  | .reqStop r => requestStopAudio s r
  | .startSend u lab => (sendStart s u lab).1

/-- Splitting of the outbound buffer into 160-byte chunks, as done by the
`for` loop of `sendAudioViaWebSocket` (server.js lines 728-749) with
`chunkSize = 160` and `totalChunks = ceil (length / 160)`. -/
def chunkifyGo : Nat → List Nat → List (List Nat)
  | 0, _ => []
  | _, [] => []
  | fuel + 1, b => b.take 160 :: chunkifyGo fuel (b.drop 160)

/-- All 160-byte chunks of a buffer, in order (last one may be short). -/
def chunkify (b : List Nat) : List (List Nat) := chunkifyGo b.length b

/-- Chunk loop of `sendAudioViaWebSocket` (server.js lines 739-775):
before each chunk, abort when `stopAudioGen` equals this send's
generation; otherwise emit the chunk; between chunks (not after the
last) the 20 ms sleep lets one batch of interference events run.
Returns the final session, the chunks actually sent in order, and the
`wasInterrupted` flag. -/
def sendChunks (gen : Nat) :
    Session → List (List Nat) → List (List SchedEv) → Session × List (List Nat) × Bool
  | s, [], _ => (s, [], false)
  | s, [c], _ =>
    if s.stopAudioGen = some gen then (s, [], true) else (s, [c], false)
  | s, c :: c2 :: cs2, interf =>
    if s.stopAudioGen = some gen then (s, [], true)
    else
      let s1 := (interf.headD []).foldl applySchedEv s
      let r := sendChunks gen s1 (c2 :: cs2) interf.tail
      (r.1, c :: r.2.1, r.2.2)

/-- Result of one `sendAudioViaWebSocket` call: final session state, the
media chunks emitted in order, the total chunk count of the payload, the
returned completion flag, and whether the final `mark` event was
emitted (exactly when the loop was not interrupted, lines 787-799). -/
structure SendResult where
  session : Session
  sentChunks : List (List Nat)
  totalChunks : Nat
  completed : Bool
  markEmitted : Bool
  deriving DecidableEq, Repr

/-- Embedding of `sendAudioViaWebSocket` (server.js lines 683-810):
validation of the socket and stream id, generation allocation, the paced
chunk loop with cooperative cancellation, the epilogue that clears
`isSendingAudio` / `stopAudioGen` / `uninterruptibleAudioGen` when they
still belong to this generation, the greeting flag clear, and the final
`mark` on natural completion.  `interf` carries the interference events
that run during each 20 ms sleep. -/
def sendAudioViaWebSocket (s : Session) (mulawBuffer : List Nat)
    (uninterruptible : Bool) (label : String) (interf : List (List SchedEv)) :
    Except String SendResult :=
  if ¬s.wsOpen then .error "WebSocket connection is not open"
  else
    match s.streamSid with
    | none => .error "Stream SID not found in session"
    | some _ =>
      let sg := sendStart s uninterruptible label
      let gen := sg.2
      let chunks := chunkify mulawBuffer
      let r := sendChunks gen sg.1 chunks interf
      let s2 := r.1
      let interrupted := r.2.2
      let s3 :=
        if s2.activeAudioGen = some gen then
          { s2 with
              isSendingAudio := false
              stopAudioGen := if s2.stopAudioGen = some gen then none else s2.stopAudioGen
              uninterruptibleAudioGen :=
                if s2.uninterruptibleAudioGen = some gen then none
                else s2.uninterruptibleAudioGen }
        else s2
      let s4 := if label = "greeting" then { s3 with greetingInProgress := false } else s3
      .ok ⟨s4, r.2.1, chunks.length, !interrupted, !interrupted⟩

/-- Invariant of a running send generation `gen`: the generation is
positive, no later counter value has been skipped below it, no stop is
recorded against it, and if it is still the active generation then it
carries the uninterruptible marker.  Established by `sendStart` with the
uninterruptible option and preserved by all interference. -/
def SendInv (gen : Nat) (s : Session) : Prop :=
  0 < gen ∧ gen ≤ s.audioGenCounter ∧ s.stopAudioGen ≠ some gen ∧
    (s.activeAudioGen = some gen → s.uninterruptibleAudioGen = some gen)

/-- Whether an interference event is a send prologue (as opposed to a
stop request). -/
def isStartSend : SchedEv → Bool
  | .reqStop _ => false
  | .startSend _ _ => true

/-! ### Inbound media handling (server.js `handleInboundMediaMessage`, lines 390-547) -/

/-- Shape of a parsed `media` wire event as read by the handler:
`message.streamSid`, `message.media.track` and the base64-decoded
`message.media.payload` bytes. -/
structure MediaMsg where
  streamSid : Option String := none
  track : Option String := none
  payload : Option (List Nat) := none

/-- VAD / segmentation configuration read from environment variables,
with the source defaults (server.js lines 464-530). -/
structure VadConfig where
  vadThreshold : Nat := 2
  vadThresholdWhilePlaying : Nat := 6
  speechWarmupFrames : Nat := 2
  speechWarmupFramesWhilePlaying : Nat := 4
  silenceMs : Nat := 300
  minSpeechFrames : Nat := 10
  minSpeechBytes : Nat := 1600
  minSpeechMs : Nat := 400
  deriving DecidableEq, Repr

/-- The source defaults: `VAD_THRESHOLD=2`, `VAD_THRESHOLD_WHILE_PLAYING=6`,
`SPEECH_WARMUP_FRAMES=2`, `SPEECH_WARMUP_FRAMES_WHILE_PLAYING=4`,
`SILENCE_MS=300`, `MIN_SPEECH_FRAMES=10`, `MIN_SPEECH_BYTES=1600`,
`MIN_SPEECH_MS=400`. -/
def defaultVadConfig : VadConfig := {}

/-- A segment accepted at end of speech, together with the kept frame
count and the measured speech duration the guard compared (the values
logged at `eos_confirmed`). -/
structure AcceptedInfo where
  data : List Nat
  frames : Nat
  speechMs : Nat
  deriving DecidableEq, Repr

/-- Observable side effects of one `handleInboundMediaMessage` call:
whether a confirmed speech start was logged, whether `requestStopAudio`
was invoked for caller speech, whether `onStreamSidReady` was triggered
from the recovery block, whether the end-of-speech segment was dropped
as too small, whether `maybePlayFillerAizuchi` was invoked, and the
segment handed to `queueOrMergeIncomingSegment` (and hence to STT), if
any. -/
structure MediaOutput where
  speechStart : Bool := false
  stopRequested : Bool := false
  initialTriggered : Bool := false
  dropped : Bool := false
  fillerRequested : Bool := false
  accepted : Option AcceptedInfo := none
  deriving DecidableEq, Repr

/-- JS `a || b` on an optional numeric field (0 is falsy). -/
def jsOrNat (a : Option Nat) (b : Nat) : Nat :=
  match a with
  | some n => if n ≠ 0 then n else b
  | none => b

/-- Start-recovery block of `handleInboundMediaMessage` (server.js lines
406-452): when a media event arrives before `start`, adopt its
`streamSid`, look up the call id via the Firestore oracle, install the
`onStreamSidReady` callback, mark the session connected, and report
whether `onStreamSidReady` was triggered. -/
def mediaStartRecovery (s0 : Session) (msg : MediaMsg)
    (recentRingingCall : Option String) : Session × Bool :=
  if ¬s0.startReceived ∧ msg.streamSid.isSome then
    let s1 := { s0 with streamSid := msg.streamSid, startReceived := true }
    let s2 :=
      if s1.callSid = none then
        match recentRingingCall with
        | some cid => { s1 with callSid := some cid }
        | none => s1
      else s1
    let s3 :=
      if ¬s2.hasOnStreamSidReady ∧ s2.callSid ≠ none then
        { s2 with hasOnStreamSidReady := true }
      else s2
    let s4 := if ¬s3.connected then { s3 with connected := true } else s3
    let trig : Bool :=
      ¬s4.initialMessageSent ∧ s4.callSid ≠ none ∧ s4.streamSid ≠ none ∧
        s4.startReceived ∧ s4.hasOnStreamSidReady
    (s4, trig)
  else (s0, false)

/-- Speech-start block of `handleInboundMediaMessage` (server.js lines
483-504): on a confirmed start, reset the segment state, request a stop
of any in-flight audio (barge-in, subject to the uninterruptible rule),
and cancel a pending merge timer; otherwise only the warmup counter is
updated. -/
def mediaSpeechStart (sR : Session) (warmup : Nat) (confirmed : Bool) (now : Nat)
    (out : MediaOutput) : Session × MediaOutput :=
  if ¬sR.speechActive then
    if ¬confirmed then ({ sR with speechWarmup := warmup }, out)
    else
      let sA := { sR with
        speechWarmup := warmup
        speechActive := true
        segmentStartMs := some now
        speechStartMs := some now
        segmentBuffers := []
        segmentLastNonSilentIndex := -1 }
      let sB := if sA.isSendingAudio then requestStopAudio sA "caller_speech" else sA
      let sC := if sB.pendingTimerActive then { sB with pendingTimerActive := false } else sB
      (sC, { out with speechStart := true, stopRequested := sA.isSendingAudio })
  else ({ sR with speechWarmup := warmup }, out)

/-- End-of-speech block of `handleInboundMediaMessage` (server.js lines
514-546): when the trailing silence exceeds the threshold on a silent
frame, trim the segment to the last non-silent frame, reset the VAD
state, and either drop the segment as noise (below any of the
minimum-frame / minimum-byte / minimum-duration guards) or accept it
(invoking the filler and handing it to the merge queue and STT). -/
def mediaEos (cfg : VadConfig) (sAcc : Session) (isSpeechFrame : Bool) (now : Nat)
    (out : MediaOutput) : Session × MediaOutput :=
  let lastSpeechAt : Nat := jsOrNat sAcc.lastIncomingAudioTime (jsOrNat sAcc.speechStartMs now)
  let silenceMs : Nat := now - lastSpeechAt
  if sAcc.speechActive && decide (cfg.silenceMs < silenceMs) && !isSpeechFrame then
    let keepCount := (max 0 (sAcc.segmentLastNonSilentIndex + 1)).toNat
    let kept := sAcc.segmentBuffers.take keepCount
    let combined := kept.flatten
    let speechMs : Nat :=
      match sAcc.speechStartMs with
      | some t => if t ≠ 0 then now - t else 0
      | none => 0
    let sE := { sAcc with
      speechActive := false
      segmentBuffers := []
      segmentLastNonSilentIndex := -1
      speechWarmup := 0 }
    if decide (0 < combined.length) then
      if decide (kept.length < cfg.minSpeechFrames) ||
          decide (combined.length < cfg.minSpeechBytes) ||
          decide (speechMs < cfg.minSpeechMs) then
        (sE, { out with dropped := true })
      else
        (sE, { out with
          fillerRequested := true
          accepted := some ⟨combined, kept.length, speechMs⟩ })
    else (sE, out)
  else (sAcc, out)

/-- Per-frame speech decision of the VAD (server.js lines 463-474):
`calculateAudioLevel(audioData) > threshold` with the context-dependent
threshold (the source reads the thresholds from the environment, with
integer defaults 2 and 6).  Stated with cross-multiplied squares so the
test is integer arithmetic; `vadIsSpeechFrame_levelSq` proves it equal
to the comparison of the squared level. -/
def vadIsSpeechFrame (cfg : VadConfig) (sR : Session) (audioData : List Nat) : Bool :=
  let thr : Nat := if sR.isSendingAudio then cfg.vadThresholdWhilePlaying else cfg.vadThreshold
  if audioData.length = 0 then false
  else if audioFastSilent audioData then false
  else decide (((thr : ℤ) ^ 2 * (audioSample audioData).length * 32768 ^ 2)
    < audioSumSq audioData * 100 ^ 2)

/-- Updated warmup counter (server.js lines 476-478): incremented on a
speech frame, reset on a silent one. -/
def vadWarmup (cfg : VadConfig) (sR : Session) (audioData : List Nat) : Nat :=
  if vadIsSpeechFrame cfg sR audioData then sR.speechWarmup + 1 else 0

/-- Speech-start confirmation (server.js lines 479-481): the warmup
counter reached the context-dependent requirement. -/
def vadConfirmed (cfg : VadConfig) (sR : Session) (audioData : List Nat) : Bool :=
  decide ((if sR.isSendingAudio then cfg.speechWarmupFramesWhilePlaying
    else cfg.speechWarmupFrames) ≤ vadWarmup cfg sR audioData)

/-- VAD and segmentation for one decoded payload (server.js lines
456-546): audio level, context-dependent threshold, warmup counting,
the speech-start block, unconditional frame accumulation while speech is
active, and the end-of-speech block. -/
def mediaVad (cfg : VadConfig) (sR : Session) (audioData : List Nat) (now : Nat)
    (out : MediaOutput) : Session × MediaOutput :=
  if ¬sR.speechActive ∧ ¬(vadConfirmed cfg sR audioData) = true then
    ({ sR with speechWarmup := vadWarmup cfg sR audioData }, out)
  else
    let sw := mediaSpeechStart sR (vadWarmup cfg sR audioData)
      (vadConfirmed cfg sR audioData) now out
    let sV := sw.1
    -- unconditional accumulation while speech is active (lines 506-512)
    let sAcc0 := { sV with segmentBuffers := sV.segmentBuffers ++ [audioData] }
    let sAcc :=
      if vadIsSpeechFrame cfg sR audioData then
        { sAcc0 with
            lastIncomingAudioTime := some now
            segmentLastNonSilentIndex := (sAcc0.segmentBuffers.length : Int) - 1
            lastSpeechMs := some now }
      else sAcc0
    mediaEos cfg sAcc (vadIsSpeechFrame cfg sR audioData) now sw.2

/-- Embedding of `handleInboundMediaMessage` (server.js lines 390-547).
`now` is `Date.now()` and `recentRingingCall` is the oracle result of
the Firestore query for the most recent ringing call (lines 415-429).
Order of the source is kept: non-inbound track guard, greeting guard,
start-recovery block, payload guard, then VAD and segmentation. -/
def handleInboundMediaMessage (cfg : VadConfig) (s0 : Session) (msg : MediaMsg)
    (now : Nat) (recentRingingCall : Option String) : Session × MediaOutput :=
  if msg.track.getD "" ≠ "" ∧ msg.track ≠ some "inbound" then (s0, {})
  else if s0.greetingInProgress then (s0, {})
  else
    let rec0 := mediaStartRecovery s0 msg recentRingingCall
    let outR : MediaOutput := { initialTriggered := rec0.2 }
    match msg.payload with
    | none => (rec0.1, outR)
    | some audioData => mediaVad cfg rec0.1 audioData now outR

/-! ### Intent classifier and turn handler (server.js lines 94-143, 812-1115) -/

/-- JS `String.prototype.trim`: strip leading and trailing whitespace
(structural implementation over the character list). -/
def trimString (s : String) : String :=
  ((s.toList.dropWhile Char.isWhitespace).reverse.dropWhile Char.isWhitespace).reverse.asString

/-- The "no more requests" phrase list of `detectNoMoreRequests`
(server.js line 97). -/
def noMorePhrases : List String :=
  ["特にない", "特にありません", "ないです", "ありません", "大丈夫", "結構です",
    "以上です", "それだけ", "ないですね"]

/-- Embedding of `detectNoMoreRequests` (server.js lines 94-99): trim,
empty check, then substring containment of any fixed phrase. -/
def detectNoMoreRequests (text : String) : Bool :=
  let t := trimString text
  if t = "" then false
  else noMorePhrases.any (fun p => decide (p.toList <:+: t.toList))

/-- Outcome of the classifier RPC plus `JSON.parse`, as an oracle: the
RPC threw, the parse threw, or it produced a value whose optional
`action` and `reason` fields are given (a non-object JSON value has
both `none`). -/
inductive ClsOutcome where
  | rpcFail
  | parseFail
  | parsed (action : Option String) (reason : Option String)
  deriving DecidableEq, Repr

/-- The action strings accepted by the classifier. -/
def validActions : List String := ["normal", "take_message", "closing", "farewell"]

/-- Embedding of `classifyUserTurnWithAI` (server.js lines 101-143): any
throw from the RPC or `JSON.parse` is caught and becomes
`("normal", "classifier_error")`; a parsed value whose `action` is one
of the four accepted strings is returned with `String(reason || "")`;
anything else becomes `("normal", "invalid_action")`. -/
def classifyUserTurnWithAI : ClsOutcome → String × String
  | .rpcFail => ("normal", "classifier_error")
  | .parseFail => ("normal", "classifier_error")
  | .parsed a r =>
    match a with
    | some act =>
      if act = "normal" ∨ act = "take_message" ∨ act = "closing" ∨ act = "farewell" then
        (act, r.getD "")
      else ("normal", "invalid_action")
    | none => ("normal", "invalid_action")

/-- One message of the persisted conversation log. -/
structure ConvMsg where
  role : String
  content : String
  deriving DecidableEq, Repr

/-- Dialog flags of the session used by the turn handler. -/
structure DialogState where
  closingAsked : Bool := false
  purposeCaptured : Bool := false
  deriving DecidableEq, Repr

/-- Oracle inputs consumed by one turn: the Whisper transcription text,
the classifier outcome, and the chat-completion reply text. -/
structure TurnOracle where
  sttText : String
  cls : ClsOutcome
  llmReply : String
  deriving DecidableEq, Repr

/-- The fixed retry utterance for an empty transcription
(server.js line 925). -/
def emptyRetryText : String := "すみません、少し聞き取れませんでした。もう一度お願いできますか？"

/-- The fixed farewell utterance (server.js lines 953 and 1032). -/
def farewellText : String := "承知しました。失礼いたします。"

/-- The fixed message-intake prompt (server.js line 975). -/
def takeMessagePrompt : String :=
  "恐れ入りますが担当者へお繋ぎできません。伝言として承りますので、ご用件と、お名前・折り返し先（電話番号）をお話しください。"

/-- The fixed closing question `CLOSING_TEXT` (server.js line 92). -/
def closingQuestionText : String := "他にご用件はありますか？特になければ、このままお電話をお切りください。"

/-- The closing reply sent by the `closing` route (server.js line 1010). -/
def closingReplyText : String := "承知しました。" ++ closingQuestionText

/-- JS `String.prototype.trimEnd`: strip trailing whitespace. -/
def trimEndOfString (s : String) : String :=
  ((s.toList.reverse.dropWhile Char.isWhitespace).reverse).asString

/-- Truncation of an overlong chat reply (server.js lines 1080-1083):
`slice(0, maxChars).trimEnd() + ellipsis` when longer than `maxChars`. -/
def truncateReply (maxChars : Nat) (t : String) : String :=
  if maxChars < t.length then trimEndOfString (t.take maxChars) ++ "…" else t

/-- One iteration of the segment-queue loop of `processIncomingAudio`
(server.js lines 832-1105): trim the transcription; on empty text speak
the fixed retry utterance and continue without touching the log;
otherwise append the user message, classify, and route to farewell /
take_message / closing / the no-more-requests fallback / the chat LLM,
appending the assistant message and speaking the reply.  Returns the
updated dialog flags, the updated conversation log, and the texts
spoken this turn. -/
def runTurn (maxChars : Nat) (st : DialogState) (log : List ConvMsg) (o : TurnOracle) :
    DialogState × List ConvMsg × List String :=
  let userMessage := trimString o.sttText
  if userMessage = "" then (st, log, [emptyRetryText])
  else
    let log1 := log ++ [⟨"user", userMessage⟩]
    let cls := classifyUserTurnWithAI o.cls
    if cls.1 = "farewell" then
      (st, log1 ++ [⟨"assistant", farewellText⟩], [farewellText])
    else if cls.1 = "take_message" then
      (st, log1 ++ [⟨"assistant", takeMessagePrompt⟩], [takeMessagePrompt])
    else if cls.1 = "closing" then
      (⟨true, true⟩, log1 ++ [⟨"assistant", closingReplyText⟩], [closingReplyText])
    else if st.closingAsked && detectNoMoreRequests userMessage then
      (st, log1 ++ [⟨"assistant", farewellText⟩], [farewellText])
    else
      let reply := truncateReply maxChars (trimString o.llmReply)
      (st, log1 ++ [⟨"assistant", reply⟩], [reply])

/-- The `while (session._segmentQueue.length)` loop of
`processIncomingAudio` (server.js lines 832-1105): each queued segment
is processed in order by `runTurn`; the spoken texts accumulate. -/
def processQueue (maxChars : Nat) :
    DialogState → List ConvMsg → List TurnOracle → DialogState × List ConvMsg × List String
  | st, log, [] => (st, log, [])
  | st, log, o :: os =>
    let r := runTurn maxChars st log o
    let rest := processQueue maxChars r.1 r.2.1 os
    (rest.1, rest.2.1, r.2.2 ++ rest.2.2)

/-! ### Operator HTTP control surface -/

/-- Requests of the small HTTP control surface. -/
inductive ControlRequest where
  | healthGet
  | transferPost (call_id message target : String)
  | aiResponsePost (call_id : String) (enabled : Bool)
  | speakPost (call_id text : String)
  deriving DecidableEq, Repr

/-- Update the `ai_enabled` flag of the named call in the session table. -/
def setAiEnabled : List (String × Bool) → String → Bool → List (String × Bool)
  | [], cid, en => [(cid, en)]
  | (c, e) :: rest, cid, en =>
    if c = cid then (c, en) :: rest else (c, e) :: setAiEnabled rest cid en

/-- Modelled from the spec: the operator control routes `POST /transfer`,
`POST /ai-response` and `POST /speak` are not present in
`src/cloud-run-media-stream/server.js` (which registers only
`GET /health` and the `/streams` upgrade); only their dashboard caller
(`fetch(apiBase + "/transfer")` etc.) is under `src/`.  Following spec
section 4.8 / 6: `GET /health` returns 200, each POST route responds 200
on accept, and `POST /ai-response` with body `call_id, enabled` sets the
session's `ai_enabled` to `enabled`.  The session table maps call ids to
their `ai_enabled` flag. -/
def handleControlRequest (sessions : List (String × Bool)) :
    ControlRequest → Nat × List (String × Bool)
  | .healthGet => (200, sessions)
  | .transferPost _ _ _ => (200, sessions)
  | .aiResponsePost cid en => (200, setAiEnabled sessions cid en)
  | .speakPost _ _ => (200, sessions)

/-! ### Theorems -/

/-- Looking up a call id after `setAiEnabled` returns the value written. -/
theorem lookup_setAiEnabled (l : List (String × Bool)) (cid : String) (en : Bool) :
    (setAiEnabled l cid en).lookup cid = some en := by
  induction l with
  | nil => simp [setAiEnabled, List.lookup]
  | cons hd tl ih =>
    obtain ⟨c, e⟩ := hd
    by_cases h : c = cid
    · simp [setAiEnabled, h, List.lookup]
    · simp only [setAiEnabled, if_neg h, List.lookup]
      have : (cid == c) = false := by
        simp [beq_iff_eq]
        exact fun hc => h hc.symm
      rw [this]
      exact ih

/-- C1: in addition to `GET /health`, the operator control surface
exposes `POST /transfer` (body call_id, message, target),
`POST /ai-response` (body call_id, enabled) which sets the session's
`ai_enabled` flag to the given value, and `POST /speak` (body call_id,
text); each responds 200 on accept.  (The route handlers are modelled
from the spec; see `handleControlRequest`.) -/
theorem claim_C1_control_surface :
    (∀ sessions, (handleControlRequest sessions .healthGet).1 = 200)
    ∧ (∀ sessions cid msg tgt,
        (handleControlRequest sessions (.transferPost cid msg tgt)).1 = 200)
    ∧ (∀ sessions cid en,
        (handleControlRequest sessions (.aiResponsePost cid en)).1 = 200
        ∧ ((handleControlRequest sessions (.aiResponsePost cid en)).2).lookup cid = some en)
    ∧ (∀ sessions cid txt, (handleControlRequest sessions (.speakPost cid txt)).1 = 200) :=
  ⟨fun _ => rfl, fun _ _ _ _ => rfl,
    fun sessions cid en => ⟨rfl, lookup_setAiEnabled sessions cid en⟩,
    fun _ _ _ => rfl⟩

/-- C2: for a session with a send in flight, `requestStopAudio` sets
`stopAudioGen` to the active generation exactly when the uninterruptible
generation differs from the active one; when they coincide the request
is ignored and the session (in particular all audio-send state) is
unchanged. -/
theorem claim_C2_request_stop (s : Session) (g : Nat) (reason : String)
    (hsend : s.isSendingAudio = true) (hact : s.activeAudioGen = some g) (hg : 0 < g) :
    (s.uninterruptibleAudioGen ≠ s.activeAudioGen →
      requestStopAudio s reason = { s with stopAudioGen := s.activeAudioGen })
    ∧ (s.uninterruptibleAudioGen = s.activeAudioGen →
      requestStopAudio s reason = s) := by
  constructor
  · intro hne
    unfold requestStopAudio
    rw [if_neg (by simp [hsend]), if_neg (by intro h; exact hne h.2)]
  · intro heq
    have htr : truthyGen s.uninterruptibleAudioGen = true := by
      rw [heq, hact]
      simp [truthyGen]
      omega
    unfold requestStopAudio
    rw [if_neg (by simp [hsend]), if_pos ⟨htr, heq⟩]

/-- Witness for C2 at a concrete session: with active generation 1 and
no uninterruptible marker, the stop request records generation 1; with
the uninterruptible marker on generation 1, the session is unchanged. -/
theorem claim_C2_request_stop_witness :
    requestStopAudio { isSendingAudio := true, activeAudioGen := some 1 } "barge_in" =
      { isSendingAudio := true, activeAudioGen := some 1, stopAudioGen := some 1 }
    ∧ requestStopAudio
        { isSendingAudio := true, activeAudioGen := some 1,
          uninterruptibleAudioGen := some 1 } "barge_in" =
      { isSendingAudio := true, activeAudioGen := some 1,
        uninterruptibleAudioGen := some 1 } :=
  ⟨(claim_C2_request_stop _ 1 "barge_in" rfl rfl (by decide)).1 (by decide),
    (claim_C2_request_stop _ 1 "barge_in" rfl rfl (by decide)).2 rfl⟩

/-- C8: the intent classifier always returns an action among
normal / take_message / closing / farewell; an RPC or parse failure
falls back to `("normal", "classifier_error")` and an out-of-set action
value to `("normal", "invalid_action")`, so no error propagates to the
turn handler. -/
theorem claim_C8_classifier_fallback :
    (∀ o : ClsOutcome, (classifyUserTurnWithAI o).1 ∈ validActions)
    ∧ (∀ o : ClsOutcome, o = .rpcFail ∨ o = .parseFail →
        classifyUserTurnWithAI o = ("normal", "classifier_error"))
    ∧ (∀ a r, (∀ act, a = some act → act ∉ validActions) →
        classifyUserTurnWithAI (.parsed a r) = ("normal", "invalid_action")) := by
  refine ⟨?_, ?_, ?_⟩
  · intro o
    cases o with
    | rpcFail => simp [classifyUserTurnWithAI, validActions]
    | parseFail => simp [classifyUserTurnWithAI, validActions]
    | parsed a r =>
      cases a with
      | none => simp [classifyUserTurnWithAI, validActions]
      | some act =>
        by_cases h : act = "normal" ∨ act = "take_message" ∨ act = "closing" ∨ act = "farewell"
        · rcases h with h | h | h | h <;>
            simp [classifyUserTurnWithAI, validActions, h]
        · simp [classifyUserTurnWithAI, validActions, h]
  · rintro o (rfl | rfl) <;> rfl
  · intro a r hout
    cases a with
    | none => rfl
    | some act =>
      have h := hout act rfl
      simp only [validActions, List.mem_cons, List.not_mem_nil] at h
      push_neg at h
      simp [classifyUserTurnWithAI, h.1, h.2.1, h.2.2.1, h.2.2.2.1]

/-- Witness for C8: an RPC failure and an out-of-set action both fall
back to `normal`, and every outcome yields an in-set action. -/
theorem claim_C8_witness :
    classifyUserTurnWithAI .rpcFail = ("normal", "classifier_error")
    ∧ classifyUserTurnWithAI (.parsed (some "transfer") none) = ("normal", "invalid_action")
    ∧ (classifyUserTurnWithAI (.parsed (some "closing") (some "got purpose"))).1 ∈ validActions :=
  ⟨claim_C8_classifier_fallback.2.1 _ (Or.inl rfl),
    claim_C8_classifier_fallback.2.2 _ _
      (fun act h => by injection h with h2; subst h2; decide),
    claim_C8_classifier_fallback.1 _⟩

/-- A stop request preserves the running-generation invariant: it can
only record the currently active generation, which either is `gen`
itself (and then the uninterruptible marker blocks the request) or
differs from `gen`. -/
theorem sendInv_requestStop (gen : Nat) (s : Session) (r : String) (h : SendInv gen s) :
    SendInv gen (requestStopAudio s r) := by
  obtain ⟨hg, hc, hs, hu⟩ := h
  by_cases h1 : s.isSendingAudio = true
  · by_cases h2 : truthyGen s.uninterruptibleAudioGen = true ∧
        s.uninterruptibleAudioGen = s.activeAudioGen
    · unfold requestStopAudio
      rw [if_neg (by simp [h1]), if_pos h2]
      exact ⟨hg, hc, hs, hu⟩
    · unfold requestStopAudio
      rw [if_neg (by simp [h1]), if_neg h2]
      refine ⟨hg, hc, ?_, hu⟩
      show s.activeAudioGen ≠ some gen
      intro hact
      have huv := hu hact
      exact h2 ⟨by rw [huv]; simp [truthyGen]; omega, huv.trans hact.symm⟩
  · unfold requestStopAudio
    rw [if_pos h1]
    exact ⟨hg, hc, hs, hu⟩

/-- The prologue of a concurrently started send preserves the invariant:
the new generation is strictly larger than `gen` and the pending stop is
cleared. -/
theorem sendInv_applySchedEv (gen : Nat) (s : Session) (e : SchedEv) (h : SendInv gen s) :
    SendInv gen (applySchedEv s e) := by
  cases e with
  | reqStop r => exact sendInv_requestStop gen s r h
  | startSend u lab =>
    obtain ⟨hg, hc, hs, hu⟩ := h
    refine ⟨hg, ?_, ?_, ?_⟩
    · simp [applySchedEv, sendStart]
      omega
    · simp [applySchedEv, sendStart]
    · intro habs
      simp [applySchedEv, sendStart] at habs
      omega

/-- Any batch of interference events preserves the invariant. -/
theorem sendInv_foldl (gen : Nat) (evs : List SchedEv) (s : Session) (h : SendInv gen s) :
    SendInv gen (evs.foldl applySchedEv s) := by
  induction evs generalizing s with
  | nil => exact h
  | cons e tl ih => exact ih _ (sendInv_applySchedEv gen s e h)

/-- Under the invariant, the chunk loop of generation `gen` is never
interrupted: it sends every chunk in order. -/
theorem sendChunks_all (gen : Nat) (chunks : List (List Nat))
    (interf : List (List SchedEv)) (s : Session) (h : SendInv gen s) :
    (sendChunks gen s chunks interf).2.1 = chunks
    ∧ (sendChunks gen s chunks interf).2.2 = false := by
  induction chunks generalizing s interf with
  | nil => exact ⟨rfl, rfl⟩
  | cons c cs ih =>
    have hstop : ¬s.stopAudioGen = some gen := h.2.2.1
    cases cs with
    | nil => simp [sendChunks, hstop]
    | cons c2 cs2 =>
      have hinv2 := sendInv_foldl gen (interf.headD []) s h
      have ih2 := ih interf.tail _ hinv2
      simp only [sendChunks, if_neg hstop]
      exact ⟨by rw [ih2.1], ih2.2⟩

/-- C3: a send generation started with the uninterruptible flag is never
cut short by a stop request: whatever stop requests and competing send
prologues run between its 20 ms ticks, the loop transmits every
160-byte chunk of the payload in order and finishes by emitting the
final mark event. -/
theorem claim_C3_uninterruptible_send (s : Session) (sid : String) (buf : List Nat)
    (label : String) (interf : List (List SchedEv))
    (hws : s.wsOpen = true) (hsid : s.streamSid = some sid) :
    ∃ r : SendResult,
      sendAudioViaWebSocket s buf true label interf = .ok r
      ∧ r.sentChunks = chunkify buf ∧ r.completed = true ∧ r.markEmitted = true := by
  have hinv : SendInv (sendStart s true label).2 (sendStart s true label).1 := by
    refine ⟨by simp [sendStart], by simp [sendStart], by simp [sendStart], ?_⟩
    intro _
    simp [sendStart]
  obtain ⟨h1, h2⟩ :=
    sendChunks_all (sendStart s true label).2 (chunkify buf) interf
      (sendStart s true label).1 hinv
  unfold sendAudioViaWebSocket
  rw [if_neg (by simp [hws]), hsid]
  exact ⟨_, rfl, h1, by rw [h2]; rfl, by rw [h2]; rfl⟩

/-- Witness for C3: a concrete uninterruptible greeting send of three
chunks, with stop requests fired during both inter-chunk sleeps, sends
all chunks and emits the mark. -/
theorem claim_C3_witness :
    ∃ r : SendResult,
      sendAudioViaWebSocket { streamSid := some "S1" } (List.replicate 480 255) true
          "greeting" [[SchedEv.reqStop "caller_speech"], [SchedEv.reqStop "operator"]] = .ok r
      ∧ r.sentChunks = chunkify (List.replicate 480 255)
      ∧ r.completed = true ∧ r.markEmitted = true :=
  claim_C3_uninterruptible_send _ "S1" _ _ _ rfl rfl

/-- A batch of send prologues (no stop requests) leaves no pending stop. -/
theorem noStop_foldl (evs : List SchedEv) (s : Session)
    (hevs : ∀ e ∈ evs, isStartSend e = true) (hs : s.stopAudioGen = none) :
    (evs.foldl applySchedEv s).stopAudioGen = none := by
  induction evs generalizing s with
  | nil => exact hs
  | cons e tl ih =>
    cases e with
    | reqStop r => exact absurd (hevs _ (List.mem_cons_self _ _)) (by simp [isStartSend])
    | startSend u lab =>
      exact ih _ (fun e he => hevs e (List.mem_cons_of_mem _ he))
        (by simp [applySchedEv, sendStart])

/-- With no stop request among the interference, the chunk loop never
aborts. -/
theorem sendChunks_no_req (gen : Nat) (chunks : List (List Nat))
    (interf : List (List SchedEv)) (s : Session)
    (hint : ∀ evs ∈ interf, ∀ e ∈ evs, isStartSend e = true)
    (hs : s.stopAudioGen = none) :
    (sendChunks gen s chunks interf).2.1 = chunks
    ∧ (sendChunks gen s chunks interf).2.2 = false := by
  induction chunks generalizing s interf with
  | nil => exact ⟨rfl, rfl⟩
  | cons c cs ih =>
    have hstop : ¬s.stopAudioGen = some gen := by rw [hs]; simp
    cases cs with
    | nil => simp [sendChunks, hstop]
    | cons c2 cs2 =>
      have hhead : ∀ e ∈ interf.headD [], isStartSend e = true := by
        cases interf with
        | nil => intro e he; exact absurd he (List.not_mem_nil e)
        | cons evs rest => exact hint evs (List.mem_cons_self _ _)
      have htail : ∀ evs ∈ interf.tail, ∀ e ∈ evs, isStartSend e = true := by
        cases interf with
        | nil => intro evs he; exact absurd he (List.not_mem_nil evs)
        | cons evs0 rest => exact fun evs he => hint evs (List.mem_cons_of_mem _ he)
      have ih2 := ih interf.tail _ htail (noStop_foldl _ _ hhead hs)
      simp only [sendChunks, if_neg hstop]
      exact ⟨by rw [ih2.1], ih2.2⟩

/-- C10: a stop request can only cancel the generation that was active
when it was issued.  Starting a new send generation clears any pending
`stopAudioGen` before transmitting; the chunk loop aborts only in a
state whose `stopAudioGen` equals its own generation tag; and a send
whose interference contains no stop request completes fully even if a
stale stop was pending when it started. -/
theorem claim_C10_stale_stop :
    (∀ s u lab, ((sendStart s u lab).1).stopAudioGen = none)
    ∧ (∀ gen s chunks interf,
        (sendChunks gen s chunks interf).2.2 = true →
        (sendChunks gen s chunks interf).1.stopAudioGen = some gen)
    ∧ (∀ s buf u lab interf, s.wsOpen = true → s.streamSid ≠ none →
        (∀ evs ∈ interf, ∀ e ∈ evs, isStartSend e = true) →
        ∃ res, sendAudioViaWebSocket s buf u lab interf = .ok res
          ∧ res.completed = true ∧ res.sentChunks = chunkify buf) := by
  refine ⟨fun s u lab => rfl, ?_, ?_⟩
  · intro gen s chunks interf
    induction chunks generalizing s interf with
    | nil => intro h; exact absurd h (by simp [sendChunks])
    | cons c cs ih =>
      cases cs with
      | nil =>
        by_cases hstop : s.stopAudioGen = some gen
        · intro _
          simp [sendChunks, hstop]
        · intro h
          exact absurd h (by simp [sendChunks, hstop])
      | cons c2 cs2 =>
        by_cases hstop : s.stopAudioGen = some gen
        · intro _
          simp [sendChunks, hstop]
        · simp only [sendChunks, if_neg hstop]
          exact ih _ _
  · intro s buf u lab interf hws hsid hint
    obtain ⟨sid, hsid2⟩ := Option.ne_none_iff_exists'.mp hsid
    obtain ⟨h1, h2⟩ :=
      sendChunks_no_req (sendStart s u lab).2 (chunkify buf) interf
        (sendStart s u lab).1 hint (by simp [sendStart])
    unfold sendAudioViaWebSocket
    rw [if_neg (by simp [hws]), hsid2]
    exact ⟨_, rfl, by rw [h2]; rfl, h1⟩

/-- Witness for C10: a fresh send from a session with a stale pending
stop (generation 7) clears it and, with a competing send prologue as the
only interference, completes all of its single chunk; the loop abort
implies a matching stop tag at a concrete interrupted state. -/
theorem claim_C10_witness :
    ((sendStart { stopAudioGen := some 3, audioGenCounter := 3 } false "filler").1).stopAudioGen
        = none
    ∧ ((sendChunks 5 { stopAudioGen := some 5 } [[0]] []).1).stopAudioGen = some 5
    ∧ (∃ res, sendAudioViaWebSocket
          { streamSid := some "S2", stopAudioGen := some 7, audioGenCounter := 7 }
          (List.replicate 160 255) false "ai_response"
          [[SchedEv.startSend false "filler"]] = .ok res
        ∧ res.completed = true
        ∧ res.sentChunks = chunkify (List.replicate 160 255)) :=
  ⟨claim_C10_stale_stop.1 _ _ _,
    claim_C10_stale_stop.2.1 5 _ _ _ (by decide),
    claim_C10_stale_stop.2.2 _ _ _ _ _ rfl (by decide) (by decide)⟩

/-- C6: while the initial greeting is in progress, an inbound media
frame (track unset or "inbound") is dropped entirely: the handler
returns the session unchanged (in particular `speechActive`, the
segment buffers and the warmup counter) and reports no speech start, no
stop request, no drop, no filler and no accepted segment. -/
theorem claim_C6_greeting_guard (cfg : VadConfig) (s : Session) (msg : MediaMsg)
    (now : Nat) (rc : Option String)
    (hg : s.greetingInProgress = true)
    (ht : msg.track = none ∨ msg.track = some "inbound") :
    handleInboundMediaMessage cfg s msg now rc = (s, {}) := by
  unfold handleInboundMediaMessage
  have hcond : ¬(msg.track.getD "" ≠ "" ∧ msg.track ≠ some "inbound") := by
    rcases ht with h | h <;> simp [h]
  rw [if_neg hcond, if_pos hg]

/-- Witness for C6: a loud inbound frame arriving mid-greeting leaves a
concrete speech-inactive session untouched. -/
theorem claim_C6_greeting_guard_witness :
    handleInboundMediaMessage {} { greetingInProgress := true, startReceived := true }
        { track := some "inbound", payload := some (List.replicate 160 0) } 77 none =
      ({ greetingInProgress := true, startReceived := true }, {}) :=
  claim_C6_greeting_guard {} _ _ 77 none rfl (Or.inr rfl)

/-- The speech-start block does not touch the dropped / filler /
accepted fields of the output. -/
theorem mediaSpeechStart_out_fields (sR : Session) (w : Nat) (c : Bool) (now : Nat)
    (out : MediaOutput) :
    ((mediaSpeechStart sR w c now out).2).accepted = out.accepted
    ∧ ((mediaSpeechStart sR w c now out).2).fillerRequested = out.fillerRequested
    ∧ ((mediaSpeechStart sR w c now out).2).dropped = out.dropped := by
  unfold mediaSpeechStart
  split_ifs <;> simp

/-- Size guarantee of the end-of-speech block: starting from an output
with no accepted segment, no filler and no drop, a segment it accepts
meets all three minimums, a filler invocation implies an accepted
segment, and a drop leaves no accepted segment and no filler. -/
theorem mediaEos_props (cfg : VadConfig) (sAcc : Session) (isf : Bool) (now : Nat)
    (out : MediaOutput) (hacc : out.accepted = none)
    (hfill : out.fillerRequested = false) (hdrop : out.dropped = false) :
    (∀ a, (mediaEos cfg sAcc isf now out).2.accepted = some a →
      cfg.minSpeechFrames ≤ a.frames ∧ cfg.minSpeechBytes ≤ a.data.length ∧
        cfg.minSpeechMs ≤ a.speechMs)
    ∧ ((mediaEos cfg sAcc isf now out).2.fillerRequested = true →
        (mediaEos cfg sAcc isf now out).2.accepted ≠ none)
    ∧ ((mediaEos cfg sAcc isf now out).2.dropped = true →
        (mediaEos cfg sAcc isf now out).2.accepted = none ∧
        (mediaEos cfg sAcc isf now out).2.fillerRequested = false) := by
  unfold mediaEos
  dsimp only
  split_ifs with h1 h2 h3
  · -- drop branch
    refine ⟨?_, ?_, ?_⟩
    · intro a ha
      rw [hacc] at ha
      exact absurd ha (by simp)
    · intro hf
      rw [hfill] at hf
      exact absurd hf (by simp)
    · intro _
      exact ⟨hacc, hfill⟩
  · -- accept branch
    simp only [Bool.or_eq_true, decide_eq_true_eq, not_or] at h3
    refine ⟨?_, ?_, ?_⟩
    · intro a ha
      simp only [Option.some.injEq] at ha
      subst ha
      dsimp only
      omega
    · intro _
      simp
    · intro hd
      rw [hdrop] at hd
      exact absurd hd (by simp)
  · -- empty combined branch
    refine ⟨?_, ?_, ?_⟩
    · intro a ha
      rw [hacc] at ha
      exact absurd ha (by simp)
    · intro hf
      rw [hfill] at hf
      exact absurd hf (by simp)
    · intro hd
      rw [hdrop] at hd
      exact absurd hd (by simp)
  · -- no end of speech
    refine ⟨?_, ?_, ?_⟩
    · intro a ha
      rw [hacc] at ha
      exact absurd ha (by simp)
    · intro hf
      rw [hfill] at hf
      exact absurd hf (by simp)
    · intro hd
      rw [hdrop] at hd
      exact absurd hd (by simp)

/-- Lifting of `mediaEos_props` through the VAD stage. -/
theorem mediaVad_props (cfg : VadConfig) (sR : Session) (audioData : List Nat)
    (now : Nat) (out : MediaOutput) (hacc : out.accepted = none)
    (hfill : out.fillerRequested = false) (hdrop : out.dropped = false) :
    (∀ a, (mediaVad cfg sR audioData now out).2.accepted = some a →
      cfg.minSpeechFrames ≤ a.frames ∧ cfg.minSpeechBytes ≤ a.data.length ∧
        cfg.minSpeechMs ≤ a.speechMs)
    ∧ ((mediaVad cfg sR audioData now out).2.fillerRequested = true →
        (mediaVad cfg sR audioData now out).2.accepted ≠ none)
    ∧ ((mediaVad cfg sR audioData now out).2.dropped = true →
        (mediaVad cfg sR audioData now out).2.accepted = none ∧
        (mediaVad cfg sR audioData now out).2.fillerRequested = false) := by
  unfold mediaVad
  dsimp only
  split_ifs with h3 h4
  · refine ⟨?_, ?_, ?_⟩
    · intro a ha
      rw [hacc] at ha
      exact absurd ha (by simp)
    · intro hf
      rw [hfill] at hf
      exact absurd hf (by simp)
    · intro hd
      rw [hdrop] at hd
      exact absurd hd (by simp)
  all_goals
    refine mediaEos_props cfg _ _ now _ ?_ ?_ ?_
  all_goals
    first
    | rw [(mediaSpeechStart_out_fields _ _ _ _ _).1, hacc]
    | rw [(mediaSpeechStart_out_fields _ _ _ _ _).2.1, hfill]
    | rw [(mediaSpeechStart_out_fields _ _ _ _ _).2.2, hdrop]

/-- C4: every segment the media handler accepts at end of speech (the
one handed to the filler, merge queue and STT) keeps at least
`minSpeechFrames` frames, at least `minSpeechBytes` bytes and at least
`minSpeechMs` measured milliseconds of speech (defaults 10, 1600,
400 ms); a segment below any minimum is dropped as noise, with no
filler invocation and no segment queued for STT. -/
theorem claim_C4_segment_minimums (cfg : VadConfig) (s : Session) (msg : MediaMsg)
    (now : Nat) (rc : Option String) :
    (∀ a, (handleInboundMediaMessage cfg s msg now rc).2.accepted = some a →
      cfg.minSpeechFrames ≤ a.frames ∧ cfg.minSpeechBytes ≤ a.data.length ∧
        cfg.minSpeechMs ≤ a.speechMs)
    ∧ ((handleInboundMediaMessage cfg s msg now rc).2.fillerRequested = true →
        (handleInboundMediaMessage cfg s msg now rc).2.accepted ≠ none)
    ∧ ((handleInboundMediaMessage cfg s msg now rc).2.dropped = true →
        (handleInboundMediaMessage cfg s msg now rc).2.accepted = none ∧
        (handleInboundMediaMessage cfg s msg now rc).2.fillerRequested = false) := by
  unfold handleInboundMediaMessage
  dsimp only
  split_ifs with h1 h2
  · exact ⟨fun a ha => absurd ha (by simp), fun hf => absurd hf (by simp),
      fun hd => absurd hd (by simp)⟩
  · exact ⟨fun a ha => absurd ha (by simp), fun hf => absurd hf (by simp),
      fun hd => absurd hd (by simp)⟩
  · cases hpl : msg.payload with
    | none =>
      simp only [hpl]
      exact ⟨fun a ha => absurd ha (by simp), fun hf => absurd hf (by simp),
        fun hd => absurd hd (by simp)⟩
    | some audioData =>
      simp only [hpl]
      exact mediaVad_props cfg _ audioData now _ rfl rfl rfl

set_option maxRecDepth 4096 in
/-- Witness for C4: a concrete session holding two two-byte frames of
speech with one second of measured speech accepts the four-byte merged
segment at end of speech, and the accepted segment meets the configured
minimums. -/
theorem claim_C4_witness :
    (handleInboundMediaMessage { minSpeechFrames := 2, minSpeechBytes := 2, minSpeechMs := 5 }
        { startReceived := true, speechActive := true,
          segmentBuffers := [[0, 0], [0, 0]],
          segmentLastNonSilentIndex := 1, speechStartMs := some 1000,
          lastIncomingAudioTime := some 1000 }
        { payload := some [255] } 2000 none).2.accepted =
      some ⟨[0, 0, 0, 0], 2, 1000⟩
    ∧ (({ minSpeechFrames := 2, minSpeechBytes := 2, minSpeechMs := 5 }
            : VadConfig).minSpeechFrames ≤ (⟨[0, 0, 0, 0], 2, 1000⟩ : AcceptedInfo).frames
        ∧ ({ minSpeechFrames := 2, minSpeechBytes := 2, minSpeechMs := 5 }
            : VadConfig).minSpeechBytes ≤ (⟨[0, 0, 0, 0], 2, 1000⟩ : AcceptedInfo).data.length
        ∧ ({ minSpeechFrames := 2, minSpeechBytes := 2, minSpeechMs := 5 }
            : VadConfig).minSpeechMs ≤ (⟨[0, 0, 0, 0], 2, 1000⟩ : AcceptedInfo).speechMs) := by
  refine ⟨by decide, ?_⟩
  exact (claim_C4_segment_minimums
      { minSpeechFrames := 2, minSpeechBytes := 2, minSpeechMs := 5 }
      { startReceived := true, speechActive := true,
        segmentBuffers := [[0, 0], [0, 0]],
        segmentLastNonSilentIndex := 1, speechStartMs := some 1000,
        lastIncomingAudioTime := some 1000 }
      { payload := some [255] } 2000 none).1
    ⟨[0, 0, 0, 0], 2, 1000⟩ (by decide)

/-- C7: when STT returns empty (or all-whitespace) text for a queued
segment, the turn replies with the fixed "could not catch that, please
repeat" utterance, appends neither a user nor an assistant message to
the conversation log, and the queue loop goes on to process the next
queued segment. -/
theorem claim_C7_empty_transcription (maxChars : Nat) (st : DialogState)
    (log : List ConvMsg) (o : TurnOracle) (os : List TurnOracle)
    (h : trimString o.sttText = "") :
    runTurn maxChars st log o = (st, log, [emptyRetryText])
    ∧ processQueue maxChars st log (o :: os) =
      ((processQueue maxChars st log os).1, (processQueue maxChars st log os).2.1,
        emptyRetryText :: (processQueue maxChars st log os).2.2) := by
  have h1 : runTurn maxChars st log o = (st, log, [emptyRetryText]) := by
    unfold runTurn
    dsimp only
    rw [h]
    simp
  refine ⟨h1, ?_⟩
  show (let r := runTurn maxChars st log o
    let rest := processQueue maxChars r.1 r.2.1 os
    (rest.1, rest.2.1, r.2.2 ++ rest.2.2)) = _
  rw [h1]
  rfl

/-- Witness for C7: a whitespace-only transcription at a concrete state
leaves the log untouched, speaks the fixed retry utterance, and the
queue equation holds with one further oracle queued. -/
theorem claim_C7_witness :
    runTurn 140 {} [] ⟨" ", .rpcFail, ""⟩ = ({}, [], [emptyRetryText])
    ∧ processQueue 140 {} [] (⟨" ", .rpcFail, ""⟩ :: [⟨"こんにちは", .parsed (some "normal") none, "はい"⟩]) =
      ((processQueue 140 {} [] [⟨"こんにちは", .parsed (some "normal") none, "はい"⟩]).1,
        (processQueue 140 {} [] [⟨"こんにちは", .parsed (some "normal") none, "はい"⟩]).2.1,
        emptyRetryText ::
          (processQueue 140 {} [] [⟨"こんにちは", .parsed (some "normal") none, "はい"⟩]).2.2) :=
  claim_C7_empty_transcription 140 {} [] ⟨" ", .rpcFail, ""⟩
    [⟨"こんにちは", .parsed (some "normal") none, "はい"⟩] (by decide)

/-- The server decoder only depends on the low byte of its argument. -/
theorem muLawToLinearSample_mask (b : Nat) :
    muLawToLinearSample b = muLawToLinearSample (b &&& 255) := by
  unfold muLawToLinearSample
  rw [Nat.and_assoc, Nat.and_self]

set_option maxRecDepth 8192 in
/-- Magnitude bound of the decoder on bytes: at most 32124. -/
theorem muLaw_byte_bound : ∀ x, x < 256 → (muLawToLinearSample x).natAbs ≤ 32124 := by
  decide

/-- Magnitude bound of the decoder on arbitrary numeric input. -/
theorem muLawToLinearSample_natAbs (b : Nat) :
    (muLawToLinearSample b).natAbs ≤ 32124 := by
  rw [muLawToLinearSample_mask]
  exact muLaw_byte_bound _ (Nat.lt_succ_of_le Nat.and_le_right)

/-- The running sum of squared decoded samples stays nonnegative. -/
theorem audioSumSq_nonneg_aux (l : List Nat) (acc : ℤ) (h : 0 ≤ acc) :
    0 ≤ l.foldl (fun a b => a + muLawToLinearSample b ^ 2) acc := by
  induction l generalizing acc with
  | nil => exact h
  | cons hd tl ih => exact ih _ (add_nonneg h (sq_nonneg _))

/-- The sum of squared decoded samples is at most the sample count times
the squared magnitude bound. -/
theorem audioSumSq_le_aux (l : List Nat) (acc : ℤ) :
    l.foldl (fun a b => a + muLawToLinearSample b ^ 2) acc
      ≤ acc + (l.length : ℤ) * 32124 ^ 2 := by
  induction l generalizing acc with
  | nil => simp
  | cons hd tl ih =>
    have hsq : muLawToLinearSample hd ^ 2 ≤ 32124 ^ 2 := by
      have h1 := muLawToLinearSample_natAbs hd
      have h2 : -32124 ≤ muLawToLinearSample hd ∧ muLawToLinearSample hd ≤ 32124 := by omega
      exact sq_le_sq' h2.1 h2.2
    simp only [List.foldl_cons, List.length_cons]
    push_cast
    have hih := ih (acc + muLawToLinearSample hd ^ 2)
    linarith

/-- C9: the per-frame audio level lies in the half-open interval
[0, 100): the level (the square root of `calculateAudioLevelSq`) is
nonnegative and strictly below 100 — because a decoded mu-law sample's
magnitude is at most 32124 < 32768 — and it is exactly 0 for an empty
buffer and for any buffer whose examined window is more than 95 percent
0xFF (the silent fast path). -/
theorem claim_C9_audio_level_range (buf : List Nat) :
    0 ≤ Real.sqrt ((calculateAudioLevelSq buf : ℚ) : ℝ)
    ∧ Real.sqrt ((calculateAudioLevelSq buf : ℚ) : ℝ) < 100
    ∧ (buf = [] → calculateAudioLevelSq buf = 0)
    ∧ (audioFastSilent buf = true → calculateAudioLevelSq buf = 0) := by
  refine ⟨Real.sqrt_nonneg _, ?_, ?_, ?_⟩
  · rw [Real.sqrt_lt' (by norm_num : (0:ℝ) < 100)]
    have hq : calculateAudioLevelSq buf < 10000 := by
      unfold calculateAudioLevelSq
      split_ifs with h1 h2
      · norm_num
      · norm_num
      · set n : Nat := (audioSample buf).length with hn
        have hnpos : 0 < n := by
          rw [hn]
          unfold audioSample
          rw [List.length_take]
          omega
        have hSnn : (0:ℤ) ≤ audioSumSq buf := audioSumSq_nonneg_aux _ _ le_rfl
        have hSle : audioSumSq buf ≤ (n : ℤ) * 32124 ^ 2 := by
          have h := audioSumSq_le_aux (audioSample buf) 0
          rw [zero_add] at h
          exact h
        have hnQ : (0:ℚ) < (n:ℚ) := by exact_mod_cast hnpos
        have hdiv : (audioSumSq buf : ℚ) / (n:ℚ) ≤ (32124:ℚ) ^ 2 := by
          rw [div_le_iff₀ hnQ]
          have : ((audioSumSq buf : ℤ) : ℚ) ≤ ((n : ℤ) * 32124 ^ 2 : ℤ) := by
            exact_mod_cast hSle
          push_cast at this ⊢
          linarith
        calc (audioSumSq buf : ℚ) / (n:ℚ) * (100 / 32768) ^ 2
            ≤ (32124:ℚ) ^ 2 * (100 / 32768) ^ 2 :=
              mul_le_mul_of_nonneg_right hdiv (by positivity)
          _ < 10000 := by norm_num
    calc ((calculateAudioLevelSq buf : ℚ) : ℝ) < ((10000 : ℚ) : ℝ) := by exact_mod_cast hq
      _ = 100 ^ 2 := by norm_num
  · intro hbuf
    subst hbuf
    rfl
  · intro hfs
    unfold calculateAudioLevelSq
    split_ifs with h1 <;> rfl

/-- Witness for C9: the empty buffer and a 95-percent-plus idle window
give level 0, and a concrete loud window's level is within [0, 100). -/
theorem claim_C9_witness :
    calculateAudioLevelSq [] = 0
    ∧ calculateAudioLevelSq (List.replicate 20 255) = 0
    ∧ 0 ≤ Real.sqrt ((calculateAudioLevelSq [0, 0] : ℚ) : ℝ)
    ∧ Real.sqrt ((calculateAudioLevelSq [0, 0] : ℚ) : ℝ) < 100 :=
  ⟨(claim_C9_audio_level_range []).2.2.1 rfl,
    (claim_C9_audio_level_range (List.replicate 20 255)).2.2.2 (by decide),
    (claim_C9_audio_level_range [0, 0]).1,
    (claim_C9_audio_level_range [0, 0]).2.1⟩

/-- A value below a power of two has that bit clear. -/
theorem and_two_pow_eq_zero_of_lt {p i : Nat} (h : p < 2 ^ i) : p &&& 2 ^ i = 0 := by
  rw [Nat.and_two_pow, Nat.testBit_lt_two_pow h]
  simp

/-- A value in a dyadic interval has its top bit set. -/
theorem and_two_pow_ne_zero {p i : Nat} (h1 : 2 ^ i ≤ p) (h2 : p < 2 ^ (i + 1)) :
    p &&& 2 ^ i ≠ 0 := by
  rw [Nat.and_two_pow, Nat.testBit_to_div_mod]
  have h0 : 0 < 2 ^ i := Nat.two_pow_pos i
  have hlt : p / 2 ^ i < 2 := Nat.div_lt_of_lt_mul (by rw [← pow_succ]; exact h2)
  have hge : 1 ≤ p / 2 ^ i := (Nat.one_le_div_iff h0).mpr h1
  have hp : p / 2 ^ i = 1 := by omega
  rw [hp]
  simp

/-- Bit-test condition of the unrolled exponent loop: true over the
dyadic interval of the bit. -/
theorem bitCondTrue {p k : Nat} (h1 : 2 ^ k ≤ p) (h2 : p < 2 ^ (k + 1)) :
    (p &&& 1 <<< k != 0) = true := by
  rw [Nat.shiftLeft_eq, one_mul, bne_iff_ne]
  exact and_two_pow_ne_zero h1 h2

/-- Bit-test condition of the unrolled exponent loop: false below the
bit. -/
theorem bitCondFalse {p k : Nat} (h : p < 2 ^ k) :
    (p &&& 1 <<< k != 0) = false := by
  rw [Nat.shiftLeft_eq, one_mul, and_two_pow_eq_zero_of_lt h]
  rfl

/-- Low-four-bit mask as a remainder. -/
theorem and_fifteen (x : Nat) : x &&& 15 = x % 16 := by
  have h := Nat.and_pow_two_sub_one_eq_mod x 4
  norm_num at h
  exact h

/-- Mid-rise reconstruction identity of the mu-law quantizer: for a
biased magnitude `p` in [128, 32767], the decoder value built from the
exponent and mantissa of `p` satisfies
`g + p % 2^(e+3) = p + 2^(e+2)` (so the reconstruction sits `2^(e+2)`
above the truncation of `p` to its `2^(e+3)` step), and the exponent is
at most 7. -/
theorem muExp_quant (p : Nat) (hlo : 128 ≤ p) (hhi : p ≤ 32767) :
    muExp p ≤ 7 ∧
    ((((p >>> (muExp p + 3)) &&& 0xf) <<< 3) + 0x84) <<< (muExp p) + p % 2 ^ (muExp p + 3)
      = p + 2 ^ (muExp p + 2) := by
  by_cases c7 : 16384 ≤ p
  · have he : muExp p = 7 := by
      unfold muExp
      rw [bitCondTrue (k := 14) c7 (by omega)]
      rfl
    rw [he]
    refine ⟨le_refl 7, ?_⟩
    rw [Nat.shiftRight_eq_div_pow, Nat.shiftLeft_eq, Nat.shiftLeft_eq, and_fifteen]
    norm_num
    omega
  · by_cases c6 : 8192 ≤ p
    · have he : muExp p = 6 := by
        unfold muExp
        rw [bitCondFalse (k := 14) (by omega), bitCondTrue (k := 13) c6 (by omega)]
        rfl
      rw [he]
      refine ⟨by omega, ?_⟩
      rw [Nat.shiftRight_eq_div_pow, Nat.shiftLeft_eq, Nat.shiftLeft_eq, and_fifteen]
      norm_num
      omega
    · by_cases c5 : 4096 ≤ p
      · have he : muExp p = 5 := by
          unfold muExp
          rw [bitCondFalse (k := 14) (by omega), bitCondFalse (k := 13) (by omega),
            bitCondTrue (k := 12) c5 (by omega)]
          rfl
        rw [he]
        refine ⟨by omega, ?_⟩
        rw [Nat.shiftRight_eq_div_pow, Nat.shiftLeft_eq, Nat.shiftLeft_eq, and_fifteen]
        norm_num
        omega
      · by_cases c4 : 2048 ≤ p
        · have he : muExp p = 4 := by
            unfold muExp
            rw [bitCondFalse (k := 14) (by omega), bitCondFalse (k := 13) (by omega),
              bitCondFalse (k := 12) (by omega), bitCondTrue (k := 11) c4 (by omega)]
            rfl
          rw [he]
          refine ⟨by omega, ?_⟩
          rw [Nat.shiftRight_eq_div_pow, Nat.shiftLeft_eq, Nat.shiftLeft_eq, and_fifteen]
          norm_num
          omega
        · by_cases c3 : 1024 ≤ p
          · have he : muExp p = 3 := by
              unfold muExp
              rw [bitCondFalse (k := 14) (by omega), bitCondFalse (k := 13) (by omega),
                bitCondFalse (k := 12) (by omega), bitCondFalse (k := 11) (by omega),
                bitCondTrue (k := 10) c3 (by omega)]
              rfl
            rw [he]
            refine ⟨by omega, ?_⟩
            rw [Nat.shiftRight_eq_div_pow, Nat.shiftLeft_eq, Nat.shiftLeft_eq, and_fifteen]
            norm_num
            omega
          · by_cases c2 : 512 ≤ p
            · have he : muExp p = 2 := by
                unfold muExp
                rw [bitCondFalse (k := 14) (by omega), bitCondFalse (k := 13) (by omega),
                  bitCondFalse (k := 12) (by omega), bitCondFalse (k := 11) (by omega),
                  bitCondFalse (k := 10) (by omega), bitCondTrue (k := 9) c2 (by omega)]
                rfl
              rw [he]
              refine ⟨by omega, ?_⟩
              rw [Nat.shiftRight_eq_div_pow, Nat.shiftLeft_eq, Nat.shiftLeft_eq, and_fifteen]
              norm_num
              omega
            · by_cases c1 : 256 ≤ p
              · have he : muExp p = 1 := by
                  unfold muExp
                  rw [bitCondFalse (k := 14) (by omega), bitCondFalse (k := 13) (by omega),
                    bitCondFalse (k := 12) (by omega), bitCondFalse (k := 11) (by omega),
                    bitCondFalse (k := 10) (by omega), bitCondFalse (k := 9) (by omega),
                    bitCondTrue (k := 8) c1 (by omega)]
                  rfl
                rw [he]
                refine ⟨by omega, ?_⟩
                rw [Nat.shiftRight_eq_div_pow, Nat.shiftLeft_eq, Nat.shiftLeft_eq, and_fifteen]
                norm_num
                omega
              · have he : muExp p = 0 := by
                  unfold muExp
                  rw [bitCondFalse (k := 14) (by omega), bitCondFalse (k := 13) (by omega),
                    bitCondFalse (k := 12) (by omega), bitCondFalse (k := 11) (by omega),
                    bitCondFalse (k := 10) (by omega), bitCondFalse (k := 9) (by omega),
                    bitCondFalse (k := 8) (by omega)]
                  rfl
                rw [he]
                refine ⟨by omega, ?_⟩
                rw [Nat.shiftRight_eq_div_pow, Nat.shiftLeft_eq, Nat.shiftLeft_eq, and_fifteen]
                norm_num
                omega

/-- Encoder on nonnegative in-range samples: sign 0, no clipping. -/
theorem encPos (s : Int) (h0 : 0 ≤ s) (h1 : s ≤ 32635) :
    linear16ToMuLawSample s = encByte 0 (s + 0x84).toNat := by
  unfold linear16ToMuLawSample
  dsimp only
  simp only [if_neg (show ¬s < 0 by omega), if_neg (show ¬s > 32635 by omega)]

/-- Encoder on negative in-range samples: sign bit set, no clipping. -/
theorem encNeg (s : Int) (h0 : s < 0) (h1 : -32635 ≤ s) :
    linear16ToMuLawSample s = encByte 0x80 (-s + 0x84).toNat := by
  unfold linear16ToMuLawSample
  dsimp only
  simp only [if_pos h0, if_neg (show ¬-s < 0 by omega), if_neg (show ¬-s > 32635 by omega)]

/-- Encoder saturation on large positive samples: the byte 0x80. -/
theorem encPosClip (s : Int) (_h0 : 0 ≤ s) (h : 32635 < s) :
    linear16ToMuLawSample s = 128 := by
  unfold linear16ToMuLawSample
  dsimp only
  simp only [if_neg (show ¬s < 0 by omega), if_pos (show s > 32635 from h)]
  decide

/-- Encoder saturation on large negative samples: the byte 0x00. -/
theorem encNegClip (s : Int) (h0 : s < 0) (h : s < -32635) :
    linear16ToMuLawSample s = 0 := by
  unfold linear16ToMuLawSample
  dsimp only
  simp only [if_pos h0, if_neg (show ¬-s < 0 by omega), if_pos (show -s > 32635 by omega)]
  decide

set_option maxRecDepth 8192 in
/-- Decoding the assembled positive byte recovers the reconstruction
value of its exponent and mantissa. -/
theorem dec_byte_pos : ∀ e, e ≤ 7 → ∀ m, m ≤ 15 →
    muLawToLinear16Sample ((0 ||| (e <<< 4) ||| m) ^^^ 255)
      = ((((m <<< 3) + 0x84) <<< e : Nat) : Int) - 0x84 := by
  decide

set_option maxRecDepth 8192 in
/-- Decoding the assembled negative byte recovers the negated
reconstruction value of its exponent and mantissa. -/
theorem dec_byte_neg : ∀ e, e ≤ 7 → ∀ m, m ≤ 15 →
    muLawToLinear16Sample ((128 ||| (e <<< 4) ||| m) ^^^ 255)
      = -(((((m <<< 3) + 0x84) <<< e : Nat) : Int) - 0x84) := by
  decide

set_option maxRecDepth 8192 in
/-- C5: decode-then-encode is the identity on every byte except 0x7F,
whose decode coincides with that of 0xFF (the two sign-magnitude zero
encodings are identified, re-encoding to 0xFF); and encode-then-decode
stays within the G.711 quantization error of the input: at most half a
quantization step (at most 512 = 2^9, the half-step of the top segment)
for samples within the clipping range ±32635, and at most 644 (the
saturation error at ±32768) over the whole 16-bit range. -/
theorem claim_C5_mulaw_codec :
    (∀ b : Nat, b < 256 → b ≠ 127 →
      linear16ToMuLawSample (muLawToLinear16Sample b) = b)
    ∧ (muLawToLinear16Sample 127 = muLawToLinear16Sample 255
        ∧ linear16ToMuLawSample (muLawToLinear16Sample 127) = 255)
    ∧ (∀ s : Int, -32768 ≤ s → s ≤ 32767 →
        (muLawToLinear16Sample (linear16ToMuLawSample s) - s).natAbs ≤ 644
        ∧ (s.natAbs ≤ 32635 →
          (muLawToLinear16Sample (linear16ToMuLawSample s) - s).natAbs ≤ 512)) := by
  refine ⟨by decide, by decide, ?_⟩
  intro s hlo hhi
  rcases le_or_lt 0 s with hpos | hneg
  · rcases le_or_lt s 32635 with hin | hclip
    · rw [encPos s hpos hin]
      have hpInt : (((s + 0x84).toNat : Nat) : Int) = s + 0x84 := by omega
      set p := (s + 0x84).toNat with hp
      have hplo : 128 ≤ p := by omega
      have hphi : p ≤ 32767 := by omega
      obtain ⟨he7, hquant⟩ := muExp_quant p hplo hphi
      have hm15 : (p >>> (muExp p + 3)) &&& 0xf ≤ 15 := Nat.and_le_right
      have hdec := dec_byte_pos (muExp p) he7 _ hm15
      have hbyte : encByte 0 p
          = (0 ||| (muExp p <<< 4) ||| ((p >>> (muExp p + 3)) &&& 0xf)) ^^^ 255 := rfl
      rw [hbyte, hdec]
      set g := ((((p >>> (muExp p + 3)) &&& 0xf) <<< 3) + 0x84) <<< muExp p with hg
      set r := p % 2 ^ (muExp p + 3) with hrdef
      have hr : r < 2 ^ (muExp p + 3) := Nat.mod_lt _ (Nat.two_pow_pos _)
      set A := 2 ^ (muExp p + 2) with hAdef
      set B := 2 ^ (muExp p + 3) with hBdef
      have hA : A ≤ 512 := by
        rw [hAdef]
        calc 2 ^ (muExp p + 2) ≤ 2 ^ 9 := Nat.pow_le_pow_right (by norm_num) (by omega)
          _ = 512 := by norm_num
      have hB : B = 2 * A := by
        rw [hAdef, hBdef]
        ring
      refine ⟨by omega, fun _ => by omega⟩
    · rw [encPosClip s hpos hclip, (by decide : muLawToLinear16Sample 128 = 32124)]
      refine ⟨by omega, fun habs => by omega⟩
  · rcases le_or_lt (-32635) s with hin | hclip
    · rw [encNeg s hneg hin]
      have hpInt : (((-s + 0x84).toNat : Nat) : Int) = -s + 0x84 := by omega
      set p := (-s + 0x84).toNat with hp
      have hplo : 128 ≤ p := by omega
      have hphi : p ≤ 32767 := by omega
      obtain ⟨he7, hquant⟩ := muExp_quant p hplo hphi
      have hm15 : (p >>> (muExp p + 3)) &&& 0xf ≤ 15 := Nat.and_le_right
      have hdec := dec_byte_neg (muExp p) he7 _ hm15
      have hbyte : encByte 128 p
          = (128 ||| (muExp p <<< 4) ||| ((p >>> (muExp p + 3)) &&& 0xf)) ^^^ 255 := rfl
      rw [hbyte, hdec]
      set g := ((((p >>> (muExp p + 3)) &&& 0xf) <<< 3) + 0x84) <<< muExp p with hg
      set r := p % 2 ^ (muExp p + 3) with hrdef
      have hr : r < 2 ^ (muExp p + 3) := Nat.mod_lt _ (Nat.two_pow_pos _)
      set A := 2 ^ (muExp p + 2) with hAdef
      set B := 2 ^ (muExp p + 3) with hBdef
      have hA : A ≤ 512 := by
        rw [hAdef]
        calc 2 ^ (muExp p + 2) ≤ 2 ^ 9 := Nat.pow_le_pow_right (by norm_num) (by omega)
          _ = 512 := by norm_num
      have hB : B = 2 * A := by
        rw [hAdef, hBdef]
        ring
      refine ⟨by omega, fun _ => by omega⟩
    · rw [encNegClip s hneg hclip, (by decide : muLawToLinear16Sample 0 = -32124)]
      refine ⟨by omega, fun habs => by omega⟩

/-- Witness for C5: byte 200 round-trips exactly; sample 1000 comes back
within half a quantization step; sample -32768 comes back within the
saturation bound. -/
theorem claim_C5_witness :
    linear16ToMuLawSample (muLawToLinear16Sample 200) = 200
    ∧ (muLawToLinear16Sample (linear16ToMuLawSample 1000) - 1000).natAbs ≤ 512
    ∧ (muLawToLinear16Sample (linear16ToMuLawSample (-32768)) - (-32768)).natAbs ≤ 644 :=
  ⟨claim_C5_mulaw_codec.1 200 (by decide) (by decide),
    (claim_C5_mulaw_codec.2.2 1000 (by decide) (by decide)).2 (by decide),
    (claim_C5_mulaw_codec.2.2 (-32768) (by decide) (by decide)).1⟩

set_option maxRecDepth 8192 in
/-- The server decoder and the frontend decoder agree on all bytes. -/
theorem decoders_byte_eq : ∀ x, x < 256 → muLawToLinearSample x = muLawToLinear16Sample x := by
  decide

/-- The frontend decoder only depends on the low byte of its argument. -/
theorem muLawToLinear16Sample_mask (b : Nat) :
    muLawToLinear16Sample b = muLawToLinear16Sample (b &&& 255) := by
  unfold muLawToLinear16Sample
  rw [Nat.and_assoc, Nat.and_self]

/-- The server decoder (server.js) and the frontend decoder (mulaw.ts)
are the same function. -/
theorem muLawToLinearSample_eq (b : Nat) :
    muLawToLinearSample b = muLawToLinear16Sample b := by
  rw [muLawToLinearSample_mask, muLawToLinear16Sample_mask]
  exact decoders_byte_eq _ (Nat.lt_succ_of_le Nat.and_le_right)

/-- Cross-multiplied form of the squared-level comparison, for a
nonempty buffer. -/
theorem vad_cross_iff (thr : Nat) (buf : List Nat) (h1 : ¬buf.length = 0) :
    ((thr : ℤ) ^ 2 * ((audioSample buf).length : ℤ) * 32768 ^ 2 < audioSumSq buf * 100 ^ 2)
    ↔ ((thr : ℚ) ^ 2
        < (audioSumSq buf : ℚ) / ((audioSample buf).length : ℚ) * (100 / 32768) ^ 2) := by
  have hn : (0:ℚ) < ((audioSample buf).length : ℚ) := by
    have h : 0 < (audioSample buf).length := by
      unfold audioSample
      rw [List.length_take]
      omega
    exact_mod_cast h
  have hform : (audioSumSq buf : ℚ) / ((audioSample buf).length : ℚ) * (100 / 32768) ^ 2
      = (audioSumSq buf : ℚ) * 100 ^ 2 / (((audioSample buf).length : ℚ) * 32768 ^ 2) := by
    field_simp
    try ring
  rw [hform, lt_div_iff₀ (by positivity)]
  constructor
  · intro h
    calc ((thr : ℚ)) ^ 2 * (((audioSample buf).length : ℚ) * 32768 ^ 2)
        = (((thr : ℤ) ^ 2 * ((audioSample buf).length : ℤ) * 32768 ^ 2 : ℤ) : ℚ) := by
          push_cast
          ring
      _ < ((audioSumSq buf * 100 ^ 2 : ℤ) : ℚ) := by exact_mod_cast h
      _ = (audioSumSq buf : ℚ) * 100 ^ 2 := by push_cast; ring
  · intro h
    have h2 : (((thr : ℤ) ^ 2 * ((audioSample buf).length : ℤ) * 32768 ^ 2 : ℤ) : ℚ)
        < ((audioSumSq buf * 100 ^ 2 : ℤ) : ℚ) := by
      calc (((thr : ℤ) ^ 2 * ((audioSample buf).length : ℤ) * 32768 ^ 2 : ℤ) : ℚ)
          = ((thr : ℚ)) ^ 2 * (((audioSample buf).length : ℚ) * 32768 ^ 2) := by
            push_cast
            ring
        _ < (audioSumSq buf : ℚ) * 100 ^ 2 := h
        _ = ((audioSumSq buf * 100 ^ 2 : ℤ) : ℚ) := by push_cast; ring
    exact_mod_cast h2

/-- The integer speech test of the handler is exactly the comparison of
the squared threshold with the squared audio level. -/
theorem vadIsSpeechFrame_levelSq (cfg : VadConfig) (sR : Session) (buf : List Nat) :
    vadIsSpeechFrame cfg sR buf =
      decide ((((if sR.isSendingAudio then cfg.vadThresholdWhilePlaying
          else cfg.vadThreshold) : Nat) : ℚ) ^ 2 < calculateAudioLevelSq buf) := by
  unfold vadIsSpeechFrame calculateAudioLevelSq
  dsimp only
  split_ifs with h1 h2 h3 h4 h5 <;>
    try (symm; rw [decide_eq_false_iff_not]; exact not_lt.mpr (by positivity))
  all_goals rw [decide_eq_decide]
  · exact vad_cross_iff cfg.vadThresholdWhilePlaying buf h1
  · exact vad_cross_iff cfg.vadThreshold buf h1

end Owldial
